import Mathlib

-- Verification development for the `equilibrium` resource-reconciliation
-- framework.  The Python sources are shallowly embedded: pure functions become
-- Lean functions, stateful registry/store operations pass the store state
-- explicitly, and Python exceptions become `Except` errors.  Parts of the
-- repository whose code is not available (the abstract `ResourceStore`
-- contract, the rules-engine `Rule`/`Cache`/`RulesGraph.reduce` helpers) are
-- modelled from the specification; each such definition is marked in its doc
-- comment.  String manipulation is carried out structurally on `List Char`
-- (the character list of a `String`) so that all definitions evaluate.

set_option maxRecDepth 8192

namespace Equilibrium

/-! ### Identifier and apiVersion validation (`core/Resource.py`) -/

-- Character class `[a-zA-Z0-9]` of `VALID_IDENTIFIER_REGEX`.
def isIdentChar (c : Char) : Bool :=
  c.isAlphanum

-- Tail of an identifier: middle characters may also be `-`, the final
-- character must be alphanumeric.
def identTail : List Char → Bool
  | [] => true
  | [c] => isIdentChar c
  | c :: rest => (isIdentChar c || c = '-') && identTail rest

/-- Embeds `validate_identifier`: the regex
`^[a-zA-Z0-9]([-a-zA-Z0-9]*[a-zA-Z0-9])?$` accepts exactly the nonempty
strings whose first and last characters are alphanumeric and whose inner
characters are alphanumeric or a dash. -/
def validIdentifier (s : String) : Bool :=
  match s.data with
  | [] => false
  | [c] => isIdentChar c
  | c :: rest => isIdentChar c && identTail rest

-- Character class `[.a-z0-9]` of `VALID_APIVERSION_REGEX`.
def isSegChar (c : Char) : Bool :=
  c = '.' || c.isLower || c.isDigit

def segTail : List Char → Bool
  | [] => true
  | [c] => isSegChar c
  | c :: rest => (isSegChar c || c = '-') && segTail rest

/-- One `/`-separated segment of an apiVersion:
`[.a-z0-9]([-.a-z0-9]*[.a-z0-9])?`. -/
def validSegmentChars : List Char → Bool
  | [] => false
  | [c] => isSegChar c
  | c :: rest => isSegChar c && segTail rest

/-- Splits a character list on `/`, mirroring Python `str.split("/")`:
always at least one (possibly empty) group. -/
def splitSlash : List Char → List (List Char)
  | [] => [[]]
  | c :: rest =>
    match splitSlash rest with
    | [] => [[c]]
    | g :: gs => if c = '/' then [] :: g :: gs else (c :: g) :: gs

/-- Embeds `validate_api_version`: one or more valid segments joined by `/`. -/
def validApiVersion (s : String) : Bool :=
  (splitSlash s.data).all validSegmentChars

/-- Mirrors Python `"/".join(parts)` on character lists. -/
def joinSlash : List (List Char) → List Char
  | [] => []
  | [g] => g
  | g :: gs => g ++ '/' :: joinSlash gs

/-! ### `Resource.URI` (`core/Resource.py`) -/

/-- Embeds the frozen dataclass `Resource.URI`: the four-tuple primary key.
The Python field `namespace` is called `nspace` here because `namespace` is a
Lean keyword. -/
structure URI where
  apiVersion : String
  kind : String
  nspace : Option String
  name : String
deriving DecidableEq, Repr

/-- Embeds `Resource.URI.__post_init__`: construction validates the four
components in order and raises `ValueError` on the first invalid one. -/
def URI.mk? (apiVersion kind : String) (nspace : Option String) (name : String) :
    Except String URI :=
  if !validApiVersion apiVersion then .error "invalid apiVersion"
  else if !validIdentifier kind then .error "invalid kind"
  else if (match nspace with | some ns => !validIdentifier ns | none => false) then
    .error "invalid namespace"
  else if !validIdentifier name then .error "invalid name"
  else .ok ⟨apiVersion, kind, nspace, name⟩

/-- Embeds `Resource.URI.__str__`: the namespace slot is omitted entirely for
cluster-scoped resources. -/
def URI.toStr (u : URI) : String :=
  match u.nspace with
  | some ns => u.apiVersion ++ "/" ++ u.kind ++ "/" ++ ns ++ "/" ++ u.name
  | none => u.apiVersion ++ "/" ++ u.kind ++ "/" ++ u.name

/-- Embeds `Resource.URI.of`: split on `/`, take the last three parts as
kind/namespace/name and join the rest as the apiVersion.  With fewer than
three parts the negative indexing raises `IndexError`, re-raised as
`ValueError`; with three or more parts the namespace slot is always assigned
from `parts[-2]` (it is never `none`), and the resulting components are
validated by the `URI` constructor. -/
def URI.of (s : String) : Except String URI :=
  let parts := splitSlash s.data
  if parts.length < 3 then .error "invalid Resource.URI"
  else
    let apiVersion := String.mk (joinSlash (parts.take (parts.length - 3)))
    let kind := String.mk ((parts.drop (parts.length - 3)).headD [])
    let nspace := String.mk ((parts.drop (parts.length - 2)).headD [])
    let name := String.mk ((parts.drop (parts.length - 1)).headD [])
    URI.mk? apiVersion kind (some nspace) name

end Equilibrium

namespace Equilibrium

/-! ### Resource model (`core/Resource.py`) -/

/-- Embeds `Resource.Metadata` (labels/annotations are string maps, modelled
as association lists).  The Python field `namespace` is called `nspace`. -/
structure Metadata where
  nspace : Option String
  name : String
  labels : List (String × String) := []
  annotations : List (String × String) := []
deriving DecidableEq, Repr

/-- Embeds `Resource.Metadata.with_namespace`. -/
def Metadata.with_namespace (m : Metadata) (nspace : Option String) : Metadata :=
  { m with nspace := nspace }

/-- The `spec` payload of a resource: either the generic `dict[str, Any]` form
or a strongly-typed `Resource.Spec` instance.  The runtime type of a typed
spec is identified by the registered spec type's id; payload contents are
modelled as a string map. -/
inductive SpecVal where
  | generic (d : List (String × String))
  | typed (tyId : Nat) (d : List (String × String))
deriving DecidableEq, Repr

/-- The Python runtime type of a spec value: `none` stands for `dict`,
`some i` for the spec class with id `i`.  Used by the admission pipeline's
`type(new_resource.spec) != type(resource.spec)` check. -/
def SpecVal.runtimeType : SpecVal → Option Nat
  | .generic _ => none
  | .typed t _ => some t

def SpecVal.payload : SpecVal → List (String × String)
  | .generic d => d
  | .typed _ d => d

/-- Embeds `Resource`: the universal envelope.  `deletion_marker` carries the
timestamp of `Resource.DeletionMarker` (time modelled as `Nat`); `state` is
the generic controller-owned mapping. -/
structure Res where
  apiVersion : String
  kind : String
  metadata : Metadata
  spec : SpecVal
  deletion_marker : Option Nat := none
  state : Option (List (String × String)) := none
deriving DecidableEq, Repr

/-- Embeds the `Resource.uri` property. -/
def Res.uri (r : Res) : URI :=
  ⟨r.apiVersion, r.kind, r.metadata.nspace, r.metadata.name⟩

/-- Embeds `Resource.into_generic`: a typed spec is serialized back into its
generic dictionary form; everything else is unchanged. -/
def Res.into_generic (r : Res) : Res :=
  match r.spec with
  | .generic _ => r
  | .typed _ d => { r with spec := .generic d }

/-! ### Resource store (abstract `ResourceStore` contract)

The `ResourceStore` implementation is not part of the available sources (only
its test suite and its callers are), so the store operations are modelled from
the specification.  The store state is the list of stored resources, keyed by
URI. -/

/-- Python-exception taxonomy used by the store and the registries
(spec section 7). -/
inductive PyErr where
  | valueError (msg : String)
  | runtimeError (msg : String)
  | notFound (uri : URI)
  | admissionFailed (uri : URI) (cause : PyErr)
  | validationFailed (uri : URI) (cause : PyErr)
  | namespaceNotFound (uri : URI)
  | namespaceNotEmpty (uri : URI)
deriving DecidableEq, Repr

/-- The store's contents: stored resources, unique by URI. -/
abbrev Store := List Res

/-- Whether `r` is the builtin cluster-scoped Namespace resource for
namespace `ns` (`v1/Namespace`, no namespace of its own, named `ns`). -/
def isNamespaceRes (r : Res) (ns : String) : Bool :=
  decide (r.apiVersion = "v1" ∧ r.kind = "Namespace" ∧
    r.metadata.nspace = none ∧ r.metadata.name = ns)

/-- Whether a Namespace resource named `ns` is stored. -/
def hasNamespaceRes : Store → String → Bool
  | [], _ => false
  | r :: rs, ns => isNamespaceRes r ns || hasNamespaceRes rs ns

/-- Whether any stored resource lives in namespace `ns`. -/
def anyInNamespace : Store → String → Bool
  | [], _ => false
  | r :: rs, ns => decide (r.metadata.nspace = some ns) || anyInNamespace rs ns

/-- Lookup by URI. -/
def storeGet : Store → URI → Option Res
  | [], _ => none
  | r :: rs, u => if r.uri = u then some r else storeGet rs u

/-- Upsert by URI: replace the stored resource with the same URI, or append. -/
def upsertRes : Store → Res → Store
  | [], r => [r]
  | x :: xs, r => if x.uri = r.uri then r :: xs else x :: upsertRes xs r

/-- Remove the resource stored at `u`. -/
def removeURI : Store → URI → Store
  | [], _ => []
  | x :: xs, u => if x.uri = u then removeURI xs u else x :: removeURI xs u

/-- Modelled from the spec: `ResourceStore.put(lock, resource)` upserts by URI
and fails with `NamespaceNotFound` if the resource is namespaced and its
namespace has no Namespace resource. -/
def storePut (s : Store) (r : Res) : Except PyErr Store :=
  match r.metadata.nspace with
  | some ns =>
    if hasNamespaceRes s ns then .ok (upsertRes s r)
    else .error (.namespaceNotFound r.uri)
  | none => .ok (upsertRes s r)

/-- Modelled from the spec: `ResourceStore.delete(lock, uri)` physically
removes the resource and returns whether it existed; deleting a Namespace
fails with `NamespaceNotEmpty` while any resource in that namespace exists. -/
def storeDelete (s : Store) (u : URI) : Except PyErr (Bool × Store) :=
  if u.apiVersion = "v1" ∧ u.kind = "Namespace" ∧ u.nspace = none ∧
      anyInNamespace s u.name then
    .error (.namespaceNotEmpty u)
  else
    match storeGet s u with
    | none => .ok (false, s)
    | some _ => .ok (true, removeURI s u)

/-- Namespace referential integrity (spec section 3, invariants): every stored
namespaced resource refers to an existing Namespace resource. -/
def nsInv (s : Store) : Prop :=
  ∀ r ∈ s, ∀ ns, r.metadata.nspace = some ns → hasNamespaceRes s ns = true

instance (s : Store) : Decidable (nsInv s) := by
  unfold nsInv
  infer_instance

/-! ### Spec types and registries (`core/Context.py`) -/

/-- Embeds a registered `Resource.Spec` subclass: its class-level constants.
`id` models the identity of the Python class object itself (used for the
`isinstance`/`type(...)` checks). -/
structure SpecType where
  id : Nat
  API_VERSION : String
  KIND : String
  NAMESPACED : Bool
deriving DecidableEq, Repr

/-- Embeds `Resource.Spec.check_uri`: with `do_raise` set, a namespace
mismatch against `NAMESPACED` raises `ValueError`; otherwise the returned
boolean reports whether apiVersion and kind match the spec type. -/
def check_uri (st : SpecType) (u : URI) (do_raise : Bool) : Except PyErr Bool :=
  if st.NAMESPACED ∧ u.nspace = none then
    if do_raise then
      .error (.valueError "missing namespace for Resource")
    else .ok false
  else if ¬st.NAMESPACED ∧ u.nspace ≠ none then
    if do_raise then
      .error (.valueError "Resource is not namespaced")
    else .ok false
  else .ok (decide (u.apiVersion = st.API_VERSION ∧ u.kind = st.KIND))

/-- Embeds `Resource.into`: apiVersion and kind must match the target spec
type; a spec already of that type is returned as-is; any other non-generic
spec is a `RuntimeError`; a generic spec is deserialized into the typed form
(deserialization is modelled as re-tagging the payload). -/
def Res.into (st : SpecType) (r : Res) : Except PyErr Res :=
  if st.API_VERSION ≠ r.apiVersion then
    .error (.valueError "apiVersion does not match spec type")
  else if st.KIND ≠ r.kind then
    .error (.valueError "kind does not match spec type")
  else
    match r.spec with
    | .typed t _ =>
      if t = st.id then .ok r
      else .error (.runtimeError "Resource.into() can only be used for generic resources")
    | .generic d => .ok { r with spec := .typed st.id d }

/-- An admission controller's `admit_resource` method: it may mutate the
resource or raise. -/
abbrev AdmissionFn := Res → Except PyErr Res

/-- Loop body of `ControllerRegistry.admit`: `u` is the URI captured from the
input resource before the loop.  A controller exception is wrapped as
`AdmissionFailed(resource.uri, e)`; a returned resource with a different URI
or a different spec runtime type is a `RuntimeError`. -/
def admitGo (u : URI) : List AdmissionFn → Res → Except PyErr Res
  | [], r => .ok r
  | f :: fs, r =>
    match f r with
    | .error e => .error (.admissionFailed r.uri e)
    | .ok r' =>
      if r'.uri ≠ u then
        .error (.runtimeError "Admission controller mutated resource URI")
      else if r'.spec.runtimeType ≠ r.spec.runtimeType then
        .error (.runtimeError "Admission controller mutated resource spec type")
      else admitGo u fs r'

/-- Embeds `ControllerRegistry.admit`. -/
def admitAll (fns : List AdmissionFn) (r : Res) : Except PyErr Res :=
  admitGo r.uri fns r

/-- `DEFAULT_NAMESPACE` from `core/Context.py`. -/
def DEFAULT_NAMESPACE : String := "default"

/-- The default-namespace step of `ResourceRegistry.put`: a namespaced
resource whose URI (captured before deserialization) has no namespace gets
the context's default namespace. -/
def defaultFill (st : SpecType) (default_namespace : String)
    (nspace0 : Option String) (res1 : Res) : Res :=
  if nspace0 = none ∧ st.NAMESPACED then
    { res1 with metadata := res1.metadata.with_namespace (some default_namespace) }
  else res1

/-- The state-inheritance step of `ResourceRegistry.put`:
`resource.state = existing_resource.state if existing_resource else None`. -/
def inheritState (store : Store) (u : URI) (res3 : Res) : Res :=
  { res3 with state := (storeGet store u).bind Res.state }

/-- Embeds `ResourceRegistry.put`.  `resource_types` models
`ResourceTypeRegistry.get`, `validateFn` the spec's `validate()` method and
`admissionFns` the registered admission controllers.  The store is passed
and returned explicitly; every error path leaves it unchanged, mirroring the
fact that the Python method only writes in its final step.  Returns the put
resource (with inherited state) and the new store on success. -/
def registryPut (resource_types : String → String → Option SpecType)
    (validateFn : SpecType → List (String × String) → Except PyErr Unit)
    (admissionFns : List AdmissionFn) (default_namespace : String)
    (store : Store) (resource : Res) : Except PyErr Res × Store :=
  if resource.state.isSome then
    (.error (.valueError "Cannot put a resource with state into the resource store"), store)
  else
    match resource_types resource.apiVersion resource.kind with
    | none => (.error (.valueError "Unknown resource type"), store)
    | some resource_spec =>
      match Res.into resource_spec resource with
      | .error e => (.error e, store)
      | .ok res1 =>
        match validateFn resource_spec res1.spec.payload with
        | .error e => (.error (.validationFailed res1.uri e), store)
        | .ok _ =>
          match check_uri resource_spec
              (defaultFill resource_spec default_namespace resource.uri.nspace res1).uri
              true with
          | .error e => (.error e, store)
          | .ok _ =>
            match admitAll admissionFns
                (defaultFill resource_spec default_namespace resource.uri.nspace res1) with
            | .error e => (.error e, store)
            | .ok res3 =>
              match storePut store (inheritState store
                  (defaultFill resource_spec default_namespace resource.uri.nspace res1).uri
                  res3).into_generic with
              | .error e => (.error e, store)
              | .ok s' =>
                (.ok (inheritState store
                  (defaultFill resource_spec default_namespace resource.uri.nspace res1).uri
                  res3), s')

/-- Embeds `ResourceRegistry.delete`: fetch under lock; if absent, raise
`NotFound` or return false; if `force`, physically delete via the store; else
set the deletion marker with the current timestamp (`now`), idempotently. -/
def registryDelete (store : Store) (u : URI) (do_raise force : Bool) (now : Nat) :
    Except PyErr Bool × Store :=
  match storeGet store u with
  | none =>
    if do_raise then (.error (.notFound u), store) else (.ok false, store)
  | some resource =>
    if force then
      match storeDelete store u with
      | .error e => (.error e, store)
      | .ok (_, s') => (.ok true, s')
    else if resource.deletion_marker = none then
      match storePut store { resource with deletion_marker := some now } with
      | .error e => (.error e, store)
      | .ok s' => (.ok true, s')
    else (.ok true, store)

/-! ### `ResourceTypeRegistry` (`core/Context.py`) -/

/-- Association-list update mirroring Python dict assignment `m[k] = v`:
update in place if the key is present (preserving order), else append. -/
def assocSet {α : Type} : List (String × α) → String → α → List (String × α)
  | [], k, v => [(k, v)]
  | (k', v') :: rest, k, v =>
    if k' = k then (k, v) :: rest else (k', v') :: assocSet rest k v

/-- Association-list lookup mirroring Python `dict.get`. -/
def assocGet {α : Type} : List (String × α) → String → Option α
  | [], _ => none
  | (k', v') :: rest, k => if k' = k then some v' else assocGet rest k

/-- Embeds the state of `ResourceTypeRegistry`: `apiVersion → kind → spec
type object` (spec type objects identified by their `SpecType.id`). -/
abbrev RTR := List (String × List (String × Nat))

/-- Embeds `ResourceTypeRegistry.register`:
`self._resource_types.setdefault(apiVersion, {})[kind] = spec_type`. -/
def rtrRegister (reg : RTR) (apiVersion kind : String) (specId : Nat) : RTR :=
  match assocGet reg apiVersion with
  | some inner => assocSet reg apiVersion (assocSet inner kind specId)
  | none => reg ++ [(apiVersion, [(kind, specId)])]

/-- Embeds `ResourceTypeRegistry.get`. -/
def rtrGet (reg : RTR) (apiVersion kind : String) : Option Nat :=
  match assocGet reg apiVersion with
  | some inner => assocGet inner kind
  | none => none

/-! ### Rules engine (`rulesengine/`) -/

/-- A Python type token, identified by the type's name. -/
abbrev PyType := String

/-- The universe of parameter values flowing through the rules engine.
`vCustom` models the `CustomType` dataclass of the subject-injection
scenario. -/
inductive Val where
  | vInt (n : Int)
  | vStr (s : String)
  | vBool (b : Bool)
  | vCustom (v : Int)
deriving DecidableEq, Repr

/-- The runtime type of a value (Python `type(arg)`). -/
def Val.typeOf : Val → PyType
  | .vInt _ => "int"
  | .vStr _ => "str"
  | .vBool _ => "bool"
  | .vCustom _ => "CustomType"

/-! `Params` (`rulesengine/Params.py`) is an insertion-ordered mapping from
type to value with at most one value per type; it is modelled as the list of
its values, keyed by `Val.typeOf` (exactly the Python
`{type(arg): arg for arg in args}`). -/

/-- Embeds `Params.get`/`__contains__`: the value stored for a type. -/
def pLookup : List Val → PyType → Option Val
  | [], _ => none
  | v :: vs, t => if v.typeOf = t then some v else pLookup vs t

/-- Embeds `Params.types()`. -/
def pKeys (p : List Val) : List PyType :=
  p.map Val.typeOf

/-- Embeds `Params.__or__`: `Params(*{**self._params, **params._params}
.values())` — the keys of the left argument in their order with values
overridden by the right argument where present, followed by the keys only in
the right argument, in their order. -/
def pMerge (a b : List Val) : List Val :=
  a.map (fun v => match pLookup b v.typeOf with | some w => w | none => v)
    ++ b.filter (fun w => (pLookup a w.typeOf).isNone)

/-- Embeds `Params.filter(types)` (non-total form): the values of the given
types that are present, in the order of the `types` collection. -/
def pFilter (p : List Val) (types : List PyType) : List Val :=
  types.filterMap (pLookup p)

/-- Modelled from the spec (`rulesengine/Rule.py` is not among the available
sources): an immutable record of stable id, set of input types, output type
and pure function from a parameter bundle to an output.  `func` returning
`none` models the rule body raising. -/
structure Rule where
  id : String
  input_types : List PyType
  output_type : PyType
  func : List Val → Option Val

/-- Modelled from the spec (`rulesengine/Signature.py` is not among the
available sources): a set of input types together with an output type. -/
structure Signature where
  inputs : List PyType
  output_type : PyType

/-- Errors of `RulesGraph.find_path` (`rulesengine/errors.py`):
`RuleResolveError` subclasses carrying the signature (and candidate paths).
`fuel` is an artifact of the fuelled embedding of the recursion and is never
produced with sufficient fuel. -/
inductive ResolveErr where
  | noMatching (sig : Signature)
  | multiple (sig : Signature) (paths : List (List Rule))
  | fuel

/-- Embeds `RulesGraph.rules_for`: the rules that can generate the given
output type, i.e. the in-edges of that node in the multigraph.  A rule
contributes one edge per input type, so a rule with no input types has no
in-edges and is not returned. -/
def rulesFor (g : List Rule) (t : PyType) : List Rule :=
  g.filter (fun r => decide (r.output_type = t) && !r.input_types.isEmpty)

/-- Embeds `RulesGraph.find_path`, with explicit fuel for the recursion (the
Python recursion terminates because the graph is acyclic).  For each rule
producing the output type, the rule's missing inputs (`rule.input_types -
sig.inputs`) are resolved recursively, skipping the rule if any resolution
raises; with more than one candidate resolution the search fails with
`MultipleMatchingRulesError` carrying all candidate paths, with none it fails
with `NoMatchingRulesError`.  The iteration order over the Python sets of
rules and missing inputs is unspecified; it is modelled as list order. -/
def findPath (g : List Rule) : Nat → Signature → Except ResolveErr (List Rule)
  | 0, _ => .error .fuel
  | n + 1, sig =>
    let satisfy : Option (List Rule) → PyType → Option (List Rule) := fun acc? t =>
      match acc? with
      | none => none
      | some acc =>
        match findPath g n ⟨sig.inputs, t⟩ with
        | .error _ => none
        | .ok inner =>
          some (inner.foldl
            (fun a ir => if a.any (fun x => x.id == ir.id) then a else a ++ [ir]) acc)
    let results := (rulesFor g sig.output_type).foldl
      (fun res rule =>
        match (rule.input_types.filter (fun t => !sig.inputs.contains t)).foldl
            satisfy (some []) with
        | none => res
        | some acc => res ++ [acc ++ [rule]]) []
    if results.length > 1 then .error (.multiple sig results)
    else
      match results with
      | [] => .error (.noMatching sig)
      | p :: _ => .ok p

/-- Modelled from the spec: `Cache.memory()` is an unbounded process-local
map consulted by the executor, keyed by `(rule.id, hash(params))`; modelled
as keyed by `(rule.id, params)` directly. -/
abbrev Cache := List ((String × List Val) × Val)

def cacheLookup : Cache → String × List Val → Option Val
  | [], _ => none
  | (k, v) :: rest, key => if k = key then some v else cacheLookup rest key

/-- Embeds `SimpleExecutor.execute` (`rulesengine/Executor.py`): consult the
cache; on a miss run the rule (`rule.execute(params)` is modelled from the
spec as applying the rule's pure function), assert that the result is an
instance of the rule's output type, and store it in the cache.  A rule body
raising (`func` returning `none`) propagates. -/
def execExecute (rule : Rule) (params : List Val) (cache : Cache) :
    Except String (Val × Cache) :=
  match cacheLookup cache (rule.id, params) with
  | some v => .ok (v, cache)
  | none =>
    match rule.func params with
    | none => .error "rule raised"
    | some result =>
      if result.typeOf = rule.output_type then
        .ok (result, ((rule.id, params), result) :: cache)
      else .error "Rule output does not match Rule output type"

/-- The input bundle handed to a rule in `RulesEngine.get`:
`self.subjects.filter(rule.input_types) | params.filter(rule.input_types)` —
engine subjects merged with caller params, right-hand (caller) precedence. -/
def ruleParamsOf (subjects params : List Val) (input_types : List PyType) : List Val :=
  pMerge (pFilter subjects input_types) (pFilter params input_types)

/-- Embeds `RulesEngine.get` with explicit fuel and explicit cache threading.
The engine is described by its rule graph and subjects.  The reduced graph's
rules for the output type (`self.graph.reduce(params.types(), output_type)
.rules(output_type)`; `reduce`/`rules` are modelled from the spec as the
rules producing the output type) are tried: the body returns on the first
rule, building its input bundle from subjects and caller params (caller
precedence, `ruleParamsOf`), resolving each still-missing input type through
a fresh recursive `self.get(t, global_params)` call that threads the executor
cache, and handing the bundle to the executor; with no applicable rule it
raises `RuntimeError`. -/
def engineGet (g : List Rule) (subjects : List Val) :
    Nat → PyType → List Val → Cache → Except String (Val × Cache)
  | 0, _, _, _ => .error "out of fuel"
  | n + 1, output_type, params, cache =>
    match g.filter (fun r => decide (r.output_type = output_type)) with
    | [] => .error "No applicable rule found"
    | rule :: _ =>
      let rp := ruleParamsOf subjects params rule.input_types
      let step : Except String (List Val × Cache) → PyType →
          Except String (List Val × Cache) := fun acc t =>
        match acc with
        | .error e => .error e
        | .ok (vs, c) =>
          match engineGet g subjects n t params c with
          | .error e => .error e
          | .ok (v, c') => .ok (vs ++ [v], c')
      match (rule.input_types.filter (fun t => (pLookup rp t).isNone)).foldl
          step (.ok ([], cache)) with
      | .error e => .error e
      | .ok (extras, cache') => execExecute rule (pMerge rp extras) cache'

/-- The two competing `str→int` rules of the ambiguity scenario
(`RulesGraph_test.py`): a decimal and a hexadecimal parse. -/
def ruleDecimal : Rule :=
  ⟨"r1", ["str"], "int", fun _ => some (Val.vInt 10)⟩

def ruleHex : Rule :=
  ⟨"r2", ["str"], "int", fun _ => some (Val.vInt 16)⟩

/-- The rule `CustomType→int` returning the field `v`, from the
subject-injection scenario of `RulesEngine_test.py`. -/
def CustomTypeToInt : Rule where
  id := "r1"
  input_types := ["CustomType"]
  output_type := "int"
  func := fun p =>
    match pLookup p "CustomType" with
    | some (Val.vCustom v) => some (Val.vInt v)
    | _ => none

/-! ### Concrete fixtures used by the witnesses -/

-- The builtin Namespace resource named "default" and a namespaced resource
-- in it, mirroring the `ResourceStore` test suite's fixture.
def nsRes : Res :=
  { apiVersion := "v1", kind := "Namespace"
    metadata := { nspace := none, name := "default" }, spec := .generic [] }

def myRes : Res :=
  { apiVersion := "v1", kind := "MyResource"
    metadata := { nspace := some "default", name := "my-resource" }
    spec := .generic [("content", "hi")] }

def store0 : Store := [nsRes, myRes]

-- Registered spec types: the builtin `Namespace` (cluster-scoped) and a
-- namespaced `MyResource`.
def nsSpecType : SpecType :=
  { id := 0, API_VERSION := "v1", KIND := "Namespace", NAMESPACED := false }

def mySpecType : SpecType :=
  { id := 1, API_VERSION := "v1", KIND := "MyResource", NAMESPACED := true }

def fixtureTypes : String → String → Option SpecType := fun apiVersion kind =>
  if apiVersion = "v1" ∧ kind = "Namespace" then some nsSpecType
  else if apiVersion = "v1" ∧ kind = "MyResource" then some mySpecType
  else none

-- Variants of `myRes` used by the put witnesses: one carrying state, the
-- typed form produced by `into`, and a resource with no namespace together
-- with its expected default-filled form.
def myResWithState : Res := { myRes with state := some [("phase", "active")] }

def typedMyRes : Res := { myRes with spec := .typed 1 [("content", "hi")] }

def autoRes : Res :=
  { apiVersion := "v1", kind := "MyResource"
    metadata := { nspace := none, name := "auto" }, spec := .generic [] }

def autoResFilled : Res :=
  { apiVersion := "v1", kind := "MyResource"
    metadata := { nspace := some "default", name := "auto" }, spec := .typed 1 [] }

-- A `validate()` implementation that always passes.
def validateOk : SpecType → List (String × String) → Except PyErr Unit :=
  fun _ _ => .ok ()

-- Admission controllers for the witnesses: one that raises, one that mutates
-- the URI, one that mutates the spec runtime type, one that only adds a
-- label.
def failingAdmission : AdmissionFn := fun _ => .error (.valueError "boom")

def uriMutatingAdmission : AdmissionFn := fun r =>
  .ok { r with metadata := { r.metadata with name := "other" } }

def specMutatingAdmission : AdmissionFn := fun r =>
  .ok { r with spec := .generic r.spec.payload }

def labelingAdmission : AdmissionFn := fun r =>
  .ok { r with metadata := { r.metadata with labels := [("audited", "true")] } }

def labeledMyRes : Res :=
  { typedMyRes with metadata := { typedMyRes.metadata with labels := [("audited", "true")] } }

end Equilibrium

namespace Equilibrium

-- Concrete URIs used to exercise the round-trip claims.
def nsDefaultURI : URI := ⟨"v1", "Namespace", none, "default"⟩

def namespacedURI : URI := ⟨"apps/v1", "MyResource", some "default", "my-resource"⟩

/-- C10: parsing the string form of a valid `Resource.URI` does NOT round-trip
for cluster-scoped URIs.  `str` of the builtin Namespace resource URI omits
the namespace slot, producing the three-part string `"v1/Namespace/default"`;
`Resource.URI.of` then joins zero leading parts into `apiVersion = ""`, which
fails apiVersion validation, so parsing raises `ValueError` instead of
returning the original URI.  Namespaced URIs (four or more parts) do
round-trip, as witnessed by the final conjunct. -/
theorem C10_uri_roundtrip_fails_cluster_scoped :
    URI.toStr nsDefaultURI = "v1/Namespace/default" ∧
    URI.of (URI.toStr nsDefaultURI) = .error "invalid apiVersion" ∧
    URI.of (URI.toStr nsDefaultURI) ≠ .ok nsDefaultURI ∧
    URI.of (URI.toStr namespacedURI) = .ok namespacedURI := by
  have h2 : URI.of (URI.toStr nsDefaultURI) = .error "invalid apiVersion" := by
    rfl
  exact ⟨rfl, h2, by rw [h2]; exact fun h => Except.noConfusion h, by rfl⟩

/-! ### Store lemmas -/

theorem isNamespaceRes_iff_uri {r : Res} {ns : String} :
    isNamespaceRes r ns = true ↔ r.uri = ⟨"v1", "Namespace", none, ns⟩ := by
  simp [isNamespaceRes, Res.uri, URI.mk.injEq]

theorem hasNamespaceRes_iff {s : Store} {ns : String} :
    hasNamespaceRes s ns = true ↔ ∃ w ∈ s, isNamespaceRes w ns = true := by
  induction s with
  | nil => simp [hasNamespaceRes]
  | cons x xs ih => simp [hasNamespaceRes, ih, List.exists_mem_cons_iff]

theorem anyInNamespace_iff {s : Store} {ns : String} :
    anyInNamespace s ns = true ↔ ∃ w ∈ s, w.metadata.nspace = some ns := by
  induction s with
  | nil => simp [anyInNamespace]
  | cons x xs ih => simp [anyInNamespace, ih, List.exists_mem_cons_iff]

theorem mem_upsertRes {s : Store} {r x : Res} (h : x ∈ upsertRes s r) :
    x = r ∨ x ∈ s := by
  induction s with
  | nil => simpa [upsertRes] using h
  | cons y ys ih =>
    unfold upsertRes at h
    by_cases hy : y.uri = r.uri
    · rw [if_pos hy] at h
      rcases List.mem_cons.mp h with h | h
      · exact .inl h
      · exact .inr (List.mem_cons_of_mem _ h)
    · rw [if_neg hy] at h
      rcases List.mem_cons.mp h with h | h
      · exact .inr (h ▸ List.mem_cons_self _ _)
      · rcases ih h with h | h
        · exact .inl h
        · exact .inr (List.mem_cons_of_mem _ h)

theorem hasNamespaceRes_upsertRes {s : Store} {ns : String} (r : Res)
    (h : hasNamespaceRes s ns = true) :
    hasNamespaceRes (upsertRes s r) ns = true := by
  induction s with
  | nil => simp [hasNamespaceRes] at h
  | cons y ys ih =>
    rw [hasNamespaceRes, Bool.or_eq_true] at h
    unfold upsertRes
    by_cases hy : y.uri = r.uri
    · rw [if_pos hy, hasNamespaceRes, Bool.or_eq_true]
      rcases h with h | h
      · exact .inl (isNamespaceRes_iff_uri.mpr (hy ▸ isNamespaceRes_iff_uri.mp h))
      · exact .inr h
    · rw [if_neg hy, hasNamespaceRes, Bool.or_eq_true]
      rcases h with h | h
      · exact .inl h
      · exact .inr (ih h)

theorem storeGet_eq_some {s : Store} {u : URI} {r : Res} (h : storeGet s u = some r) :
    r ∈ s ∧ r.uri = u := by
  induction s with
  | nil => simp [storeGet] at h
  | cons x xs ih =>
    unfold storeGet at h
    by_cases hx : x.uri = u
    · rw [if_pos hx] at h
      cases h
      exact ⟨List.mem_cons_self _ _, hx⟩
    · rw [if_neg hx] at h
      exact ⟨List.mem_cons_of_mem _ (ih h).1, (ih h).2⟩

theorem storeGet_upsertRes_self (s : Store) (r : Res) :
    storeGet (upsertRes s r) r.uri = some r := by
  induction s with
  | nil => simp [upsertRes, storeGet]
  | cons x xs ih =>
    unfold upsertRes
    by_cases hx : x.uri = r.uri
    · rw [if_pos hx]
      simp [storeGet]
    · rw [if_neg hx]
      rw [storeGet, if_neg hx]
      exact ih

theorem mem_removeURI {s : Store} {u : URI} {x : Res} :
    x ∈ removeURI s u ↔ x ∈ s ∧ x.uri ≠ u := by
  induction s with
  | nil => simp [removeURI]
  | cons y ys ih =>
    unfold removeURI
    by_cases hy : y.uri = u
    · rw [if_pos hy, ih]
      constructor
      · exact fun ⟨hm, hu⟩ => ⟨List.mem_cons_of_mem _ hm, hu⟩
      · rintro ⟨hm, hu⟩
        rcases List.mem_cons.mp hm with rfl | hm
        · exact absurd hy hu
        · exact ⟨hm, hu⟩
    · rw [if_neg hy]
      constructor
      · intro hm
        rcases List.mem_cons.mp hm with rfl | hm
        · exact ⟨List.mem_cons_self _ _, hy⟩
        · exact ⟨List.mem_cons_of_mem _ (ih.mp hm).1, (ih.mp hm).2⟩
      · rintro ⟨hm, hu⟩
        rcases List.mem_cons.mp hm with rfl | hm
        · exact List.mem_cons_self _ _
        · exact List.mem_cons_of_mem _ (ih.mpr ⟨hm, hu⟩)

/-- C2: namespace referential integrity of the store.  Deleting a Namespace
resource's URI fails with `NamespaceNotEmpty` while any resource exists in
that namespace; putting a namespaced resource fails with `NamespaceNotFound`
unless its Namespace resource is stored; and both committed store operations
preserve the invariant that every stored namespaced resource refers to an
existing Namespace resource. -/
theorem C2_store_namespace_integrity :
    (∀ (s : Store) (n : Res), n.apiVersion = "v1" → n.kind = "Namespace" →
      n.metadata.nspace = none → anyInNamespace s n.metadata.name = true →
      storeDelete s n.uri = .error (.namespaceNotEmpty n.uri)) ∧
    (∀ (s : Store) (r : Res) (ns : String), r.metadata.nspace = some ns →
      hasNamespaceRes s ns = false →
      storePut s r = .error (.namespaceNotFound r.uri)) ∧
    (∀ (s s' : Store) (r : Res), nsInv s → storePut s r = .ok s' → nsInv s') ∧
    (∀ (s s' : Store) (u : URI) (b : Bool), nsInv s →
      storeDelete s u = .ok (b, s') → nsInv s') := by
  refine ⟨?_, ?_, ?_, ?_⟩
  · intro s n h1 h2 h3 h4
    simp [storeDelete, Res.uri, h1, h2, h3, h4]
  · intro s r ns h1 h2
    simp [storePut, h1, h2]
  · intro s s' r hinv hput
    unfold storePut at hput
    have hup : s' = upsertRes s r ∧
        (∀ ns, r.metadata.nspace = some ns → hasNamespaceRes s ns = true) := by
      split at hput
      · next ns hns =>
        split at hput
        · next hhas =>
          cases hput
          refine ⟨rfl, fun ns' h => ?_⟩
          rw [hns] at h
          injection h with h
          exact h ▸ hhas
        · next => exact absurd hput (by simp)
      · next hns =>
        cases hput
        refine ⟨rfl, fun ns' h => ?_⟩
        rw [hns] at h
        cases h
    obtain ⟨rfl, hr⟩ := hup
    intro x hx ns hxns
    rcases mem_upsertRes hx with rfl | hxs
    · exact hasNamespaceRes_upsertRes _ (hr ns hxns)
    · exact hasNamespaceRes_upsertRes _ (hinv x hxs ns hxns)
  · intro s s' u b hinv hdel
    unfold storeDelete at hdel
    by_cases hguard : u.apiVersion = "v1" ∧ u.kind = "Namespace" ∧
        u.nspace = none ∧ anyInNamespace s u.name = true
    · rw [if_pos hguard] at hdel
      exact absurd hdel (by simp)
    · rw [if_neg hguard] at hdel
      cases hget : storeGet s u with
      | none =>
        rw [hget] at hdel
        cases hdel
        exact hinv
      | some res =>
        rw [hget] at hdel
        cases hdel
        intro x hx ns hxns
        have hxs : x ∈ s := (mem_removeURI.mp hx).1
        obtain ⟨w, hw, hwns⟩ := hasNamespaceRes_iff.mp (hinv x hxs ns hxns)
        by_cases hwu : w.uri = u
        · exfalso
          have huri : u = ⟨"v1", "Namespace", none, ns⟩ :=
            hwu ▸ isNamespaceRes_iff_uri.mp hwns
          apply hguard
          rw [huri]
          refine ⟨rfl, rfl, rfl, anyInNamespace_iff.mpr ⟨x, hxs, ?_⟩⟩
          simpa using hxns
        · exact hasNamespaceRes_iff.mpr ⟨w, mem_removeURI.mpr ⟨hw, hwu⟩, hwns⟩

theorem storeGet_removeURI_self (s : Store) (u : URI) :
    storeGet (removeURI s u) u = none := by
  induction s with
  | nil => rfl
  | cons x xs ih =>
    unfold removeURI
    by_cases hx : x.uri = u
    · rw [if_pos hx]
      exact ih
    · rw [if_neg hx, storeGet, if_neg hx]
      exact ih

theorem storePut_eq_ok {s : Store} {r : Res}
    (h : ∀ ns, r.metadata.nspace = some ns → hasNamespaceRes s ns = true) :
    storePut s r = .ok (upsertRes s r) := by
  unfold storePut
  split
  · next ns hns => rw [if_pos (h ns hns)]
  · next => rfl

/-- C3: `ResourceRegistry.delete` with `force=False` on an existing unmarked
resource returns true and stores the resource with its deletion marker set to
the current timestamp, so a subsequent get returns it marked; a repeated
non-force delete is a no-op returning true and leaving the store (including
the existing marker timestamp) unchanged; a non-force delete never changes
whether the resource exists, and `force=True` physically removes it. -/
theorem C3_registry_delete :
    (∀ (store : Store) (u : URI) (r : Res) (dr : Bool) (now : Nat),
      storeGet store u = some r → r.deletion_marker = none →
      (∀ ns, r.metadata.nspace = some ns → hasNamespaceRes store ns = true) →
      registryDelete store u dr false now =
        (.ok true, upsertRes store { r with deletion_marker := some now }) ∧
      storeGet (upsertRes store { r with deletion_marker := some now }) u =
        some { r with deletion_marker := some now }) ∧
    (∀ (store : Store) (u : URI) (r : Res) (dr : Bool) (now : Nat),
      storeGet store u = some r → r.deletion_marker ≠ none →
      registryDelete store u dr false now = (.ok true, store)) ∧
    (∀ (store : Store) (u : URI) (dr : Bool) (now : Nat) (b : Bool) (s' : Store),
      registryDelete store u dr false now = (.ok b, s') →
      (storeGet s' u).isSome = (storeGet store u).isSome) ∧
    (∀ (store : Store) (u : URI) (r : Res) (dr : Bool) (now : Nat),
      storeGet store u = some r →
      ¬(u.apiVersion = "v1" ∧ u.kind = "Namespace" ∧ u.nspace = none ∧
        anyInNamespace store u.name = true) →
      registryDelete store u dr true now = (.ok true, removeURI store u) ∧
      storeGet (removeURI store u) u = none) := by
  refine ⟨?_, ?_, ?_, ?_⟩
  · intro store u r dr now hget hm hns
    have hput : storePut store { r with deletion_marker := some now } =
        .ok (upsertRes store { r with deletion_marker := some now }) :=
      storePut_eq_ok (fun ns h => hns ns h)
    refine ⟨?_, ?_⟩
    · simp only [registryDelete, hget]
      simp [hm, hput]
    · have huri : ({ r with deletion_marker := some now } : Res).uri = u := by
        have h2 := (storeGet_eq_some hget).2
        simpa [Res.uri] using h2
      rw [← huri]
      exact storeGet_upsertRes_self _ _
  · intro store u r dr now hget hm
    simp only [registryDelete, hget]
    simp [hm]
  · intro store u dr now b s' h
    cases hget : storeGet store u with
    | none =>
      simp only [registryDelete, hget] at h
      split at h
      · next => exact absurd h (by simp [Prod.ext_iff])
      · next =>
        injection h with h1 h2
        rw [← h2, hget]
    | some r =>
      simp only [registryDelete, hget] at h
      rw [if_neg (by simp)] at h
      by_cases hm : r.deletion_marker = none
      · rw [if_pos hm] at h
        cases hput : storePut store { r with deletion_marker := some now } with
        | error e =>
          rw [hput] at h
          exact absurd h (by simp [Prod.ext_iff])
        | ok s2 =>
          rw [hput] at h
          injection h with h1 h2
          subst h2
          have huri : ({ r with deletion_marker := some now } : Res).uri = u := by
            have h3 := (storeGet_eq_some hget).2
            simpa [Res.uri] using h3
          unfold storePut at hput
          split at hput
          · next ns hns =>
            split at hput
            · next =>
              cases hput
              rw [← huri, storeGet_upsertRes_self]
              rfl
            · next => exact absurd hput (by simp)
          · next =>
            cases hput
            rw [← huri, storeGet_upsertRes_self]
            rfl
      · rw [if_neg hm] at h
        injection h with h1 h2
        rw [← h2, hget]
  · intro store u r dr now hget hguard
    refine ⟨?_, storeGet_removeURI_self store u⟩
    have hdel : storeDelete store u = .ok (true, removeURI store u) := by
      unfold storeDelete
      rw [if_neg hguard, hget]
    simp only [registryDelete, hget]
    simp [hdel]

/-- Witness for C3 at the fixture store: deleting `my-resource` (no marker)
at time 5 marks it; a repeated delete at time 9 returns true and changes
nothing; a forced delete removes it. -/
theorem C3_registry_delete_witness :
    (registryDelete store0 myRes.uri true false 5 =
      (.ok true, upsertRes store0 { myRes with deletion_marker := some 5 }) ∧
     storeGet (upsertRes store0 { myRes with deletion_marker := some 5 }) myRes.uri =
      some { myRes with deletion_marker := some 5 }) ∧
    registryDelete (upsertRes store0 { myRes with deletion_marker := some 5 })
        myRes.uri true false 9 =
      (.ok true, upsertRes store0 { myRes with deletion_marker := some 5 }) ∧
    (storeGet (upsertRes store0 { myRes with deletion_marker := some 5 }) myRes.uri).isSome =
      (storeGet store0 myRes.uri).isSome ∧
    (registryDelete store0 myRes.uri true true 7 = (.ok true, removeURI store0 myRes.uri) ∧
     storeGet (removeURI store0 myRes.uri) myRes.uri = none) := by
  obtain ⟨h1, h2, h3, h4⟩ := C3_registry_delete
  refine ⟨h1 store0 myRes.uri myRes true 5 rfl rfl (by decide), ?_, ?_, ?_⟩
  · exact h2 (upsertRes store0 { myRes with deletion_marker := some 5 }) myRes.uri
      { myRes with deletion_marker := some 5 } true 9 (by rfl) (by simp)
  · exact h3 store0 myRes.uri true 5 true
      (upsertRes store0 { myRes with deletion_marker := some 5 })
      (h1 store0 myRes.uri myRes true 5 rfl rfl (by decide)).1
  · exact h4 store0 myRes.uri myRes true 7 rfl (by decide)

/-! ### Registry put lemmas -/

theorem inheritState_uri (store : Store) (u : URI) (r : Res) :
    (inheritState store u r).uri = r.uri := rfl

theorem inheritState_state (store : Store) (u : URI) (r : Res) :
    (inheritState store u r).state = (storeGet store u).bind Res.state := rfl

theorem into_generic_uri (r : Res) : r.into_generic.uri = r.uri := by
  unfold Res.into_generic
  split <;> rfl

theorem into_generic_state (r : Res) : r.into_generic.state = r.state := by
  unfold Res.into_generic
  split <;> rfl

theorem storePut_ok_store {s s' : Store} {r : Res} (h : storePut s r = .ok s') :
    s' = upsertRes s r := by
  unfold storePut at h
  split at h
  · next ns hns =>
    split at h
    · next =>
      injection h with h
      exact h.symm
    · next => exact absurd h (by simp)
  · next =>
    injection h with h
    exact h.symm

theorem into_ok_facts {st : SpecType} {r res1 : Res} (h : Res.into st r = .ok res1) :
    res1.apiVersion = st.API_VERSION ∧ res1.kind = st.KIND ∧
    res1.metadata = r.metadata ∧ res1.state = r.state := by
  unfold Res.into at h
  split at h
  · exact absurd h (by simp)
  · next h1 =>
    split at h
    · exact absurd h (by simp)
    · next h2 =>
      rw [not_ne_iff] at h1 h2
      split at h
      · next t d hspec =>
        split at h
        · next ht =>
          injection h with h
          subst h
          exact ⟨h1.symm, h2.symm, rfl, rfl⟩
        · next => exact absurd h (by simp)
      · next d hspec =>
        injection h with h
        subst h
        exact ⟨h1.symm, h2.symm, rfl, rfl⟩

theorem admitGo_ok_uri {u : URI} {fns : List AdmissionFn} {r r' : Res}
    (h : admitGo u fns r = .ok r') (hu : r.uri = u) : r'.uri = u := by
  induction fns generalizing r with
  | nil =>
    unfold admitGo at h
    injection h with h
    rw [← h]
    exact hu
  | cons f fs ih =>
    unfold admitGo at h
    split at h
    · exact absurd h (by simp)
    · next r2 hf =>
      split at h
      · exact absurd h (by simp)
      · next h1 =>
        split at h
        · exact absurd h (by simp)
        · next h2 =>
          rw [not_ne_iff] at h1
          exact ih h h1

theorem admit_ok_uri {fns : List AdmissionFn} {r r' : Res}
    (h : admitAll fns r = .ok r') : r'.uri = r.uri :=
  admitGo_ok_uri h rfl

/-- Success analysis of `registryPut`: a successful put passed through type
lookup, deserialization, validation, URI check and admission, and the
returned resource is the admitted one with inherited state, upserted into the
store in generic form. -/
theorem registryPut_ok_spec {rt : String → String → Option SpecType}
    {vf : SpecType → List (String × String) → Except PyErr Unit}
    {fns : List AdmissionFn} {dflt : String} {store : Store}
    {resource r' : Res} {s' : Store}
    (h : registryPut rt vf fns dflt store resource = (.ok r', s')) :
    ∃ st res1 res3,
      rt resource.apiVersion resource.kind = some st ∧
      Res.into st resource = .ok res1 ∧
      (∃ bb, check_uri st (defaultFill st dflt resource.uri.nspace res1).uri true = .ok bb) ∧
      admitAll fns (defaultFill st dflt resource.uri.nspace res1) = .ok res3 ∧
      r' = inheritState store (defaultFill st dflt resource.uri.nspace res1).uri res3 ∧
      storePut store r'.into_generic = .ok s' := by
  unfold registryPut at h
  split at h
  · next =>
    injection h with h1 h2
    exact absurd h1 (by simp)
  · next =>
    split at h
    · next hrt =>
      injection h with h1 h2
      exact absurd h1 (by simp)
    · next st hrt =>
      split at h
      · next e hinto =>
        injection h with h1 h2
        exact absurd h1 (by simp)
      · next res1 hinto =>
        split at h
        · next e hval =>
          injection h with h1 h2
          exact absurd h1 (by simp)
        · next uu hval =>
          split at h
          · next e hcheck =>
            injection h with h1 h2
            exact absurd h1 (by simp)
          · next bb hcheck =>
            split at h
            · next e hadmit =>
              injection h with h1 h2
              exact absurd h1 (by simp)
            · next res3 hadmit =>
              split at h
              · next e hsp =>
                injection h with h1 h2
                exact absurd h1 (by simp)
              · next s2 hsp =>
                injection h with h1 h2
                injection h1 with h1
                subst h1
                subst h2
                exact ⟨st, res1, res3, hrt, hinto, ⟨bb, hcheck⟩, hadmit, rfl, hsp⟩

/-- C1: `ResourceRegistry.put` rejects any resource whose `state` is not none
before touching the store, and on every successful put the stored resource's
state equals the state of the resource previously stored at that URI (none if
there was none): state is never assignable through put, always inherited. -/
theorem C1_put_state_frame :
    (∀ rt vf fns dflt (store : Store) (r : Res), r.state.isSome →
      registryPut rt vf fns dflt store r =
        (.error (.valueError "Cannot put a resource with state into the resource store"),
          store)) ∧
    (∀ rt vf fns dflt (store : Store) (r r' : Res) (s' : Store),
      registryPut rt vf fns dflt store r = (.ok r', s') →
      r'.state = (storeGet store r'.uri).bind Res.state ∧
      storeGet s' r'.uri = some r'.into_generic ∧
      r'.into_generic.state = (storeGet store r'.uri).bind Res.state) := by
  constructor
  · intro rt vf fns dflt store r hstate
    unfold registryPut
    rw [if_pos hstate]
  · intro rt vf fns dflt store r r' s' h
    obtain ⟨st, res1, res3, hrt, hinto, ⟨bb, hcheck⟩, hadmit, hr', hsp⟩ :=
      registryPut_ok_spec h
    have huri' : r'.uri = (defaultFill st dflt r.uri.nspace res1).uri := by
      rw [hr', inheritState_uri]
      exact admit_ok_uri hadmit
    have hstate' : r'.state = (storeGet store r'.uri).bind Res.state := by
      rw [hr', inheritState_state, inheritState_uri, admit_ok_uri hadmit]
    refine ⟨hstate', ?_, ?_⟩
    · rw [storePut_ok_store hsp, ← into_generic_uri r']
      exact storeGet_upsertRes_self _ _
    · rw [into_generic_state]
      exact hstate'

/-- Witness for C1: putting `myRes` carrying state fails with `ValueError`
and leaves the store unchanged; putting the state-less `myRes` over its
stored copy succeeds and the stored resource keeps the prior state. -/
theorem C1_put_state_frame_witness :
    registryPut fixtureTypes validateOk [] DEFAULT_NAMESPACE store0 myResWithState =
      (.error (.valueError "Cannot put a resource with state into the resource store"),
        store0) ∧
    (typedMyRes.state = (storeGet store0 typedMyRes.uri).bind Res.state ∧
      storeGet store0 typedMyRes.uri = some typedMyRes.into_generic ∧
      typedMyRes.into_generic.state = (storeGet store0 typedMyRes.uri).bind Res.state) := by
  obtain ⟨h1, h2⟩ := C1_put_state_frame
  exact ⟨h1 fixtureTypes validateOk [] DEFAULT_NAMESPACE store0 myResWithState (by rfl),
    h2 fixtureTypes validateOk [] DEFAULT_NAMESPACE store0 myRes typedMyRes store0 (by rfl)⟩

/-- C7: a namespaced resource put without a namespace is stored under the
context's default namespace (`DEFAULT_NAMESPACE = "default"` unless
configured otherwise): the returned and stored resource's URI carries that
namespace and the URI-vs-namespaced check passes on it afterwards. -/
theorem C7_put_default_namespace :
    ∀ rt vf fns dflt (store : Store) (r r' : Res) (s' : Store) (st : SpecType),
      registryPut rt vf fns dflt store r = (.ok r', s') →
      r.metadata.nspace = none →
      rt r.apiVersion r.kind = some st →
      st.NAMESPACED = true →
      r'.uri.nspace = some dflt ∧
      storeGet s' r'.uri = some r'.into_generic ∧
      check_uri st r'.uri true = .ok true := by
  intro rt vf fns dflt store r r' s' st h hns hrt hnsp
  obtain ⟨st2, res1, res3, hrt2, hinto, ⟨bb, hcheck⟩, hadmit, hr', hsp⟩ :=
    registryPut_ok_spec h
  rw [hrt] at hrt2
  injection hrt2 with hst
  subst hst
  obtain ⟨hapi, hkind, hmeta, hstate⟩ := into_ok_facts hinto
  have hcond : r.uri.nspace = none ∧ st.NAMESPACED = true := ⟨hns, hnsp⟩
  have hfill : defaultFill st dflt r.uri.nspace res1 =
      { res1 with metadata := res1.metadata.with_namespace (some dflt) } := by
    unfold defaultFill
    rw [if_pos (by exact ⟨hns, by simp [hnsp]⟩)]
  have huri' : r'.uri = (defaultFill st dflt r.uri.nspace res1).uri := by
    rw [hr', inheritState_uri]
    exact admit_ok_uri hadmit
  refine ⟨?_, ?_, ?_⟩
  · rw [huri', hfill]
    rfl
  · rw [storePut_ok_store hsp, ← into_generic_uri r']
    exact storeGet_upsertRes_self _ _
  · rw [huri', hfill]
    simp [check_uri, Res.uri, Metadata.with_namespace, hnsp, hapi, hkind]

/-- Witness for C7: putting the namespace-less `autoRes` of the namespaced
`MyResource` type stores it under "default". -/
theorem C7_put_default_namespace_witness :
    autoResFilled.uri.nspace = some DEFAULT_NAMESPACE ∧
    storeGet (upsertRes store0 autoResFilled.into_generic) autoResFilled.uri =
      some autoResFilled.into_generic ∧
    check_uri mySpecType autoResFilled.uri true = .ok true :=
  C7_put_default_namespace fixtureTypes validateOk [] DEFAULT_NAMESPACE store0
    autoRes autoResFilled (upsertRes store0 autoResFilled.into_generic) mySpecType
    (by rfl) rfl rfl rfl

/-! ### Admission pipeline lemmas -/

theorem admitGo_cons_error {u : URI} {f : AdmissionFn} {fs : List AdmissionFn}
    {r : Res} {e : PyErr} (hf : f r = .error e) :
    admitGo u (f :: fs) r = .error (.admissionFailed r.uri e) := by
  unfold admitGo
  rw [hf]

theorem admitGo_cons_ok {u : URI} {f : AdmissionFn} {fs : List AdmissionFn}
    {r r2 : Res} (hf : f r = .ok r2) (h1 : ¬r2.uri ≠ u)
    (h2 : ¬r2.spec.runtimeType ≠ r.spec.runtimeType) :
    admitGo u (f :: fs) r = admitGo u fs r2 := by
  conv_lhs => rw [admitGo]
  simp only [hf]
  rw [if_neg h1, if_neg h2]

theorem admitGo_cons_uriMut {u : URI} {f : AdmissionFn} {fs : List AdmissionFn}
    {r r2 : Res} (hf : f r = .ok r2) (h1 : r2.uri ≠ u) :
    admitGo u (f :: fs) r =
      .error (.runtimeError "Admission controller mutated resource URI") := by
  unfold admitGo
  simp only [hf]
  rw [if_pos h1]

theorem admitGo_cons_specMut {u : URI} {f : AdmissionFn} {fs : List AdmissionFn}
    {r r2 : Res} (hf : f r = .ok r2) (h1 : ¬r2.uri ≠ u)
    (h2 : r2.spec.runtimeType ≠ r.spec.runtimeType) :
    admitGo u (f :: fs) r =
      .error (.runtimeError "Admission controller mutated resource spec type") := by
  unfold admitGo
  simp only [hf]
  rw [if_neg h1, if_pos h2]

theorem admitGo_append {u : URI} {fns₁ : List AdmissionFn} (fns₂ : List AdmissionFn)
    {r r₁ : Res} (h : admitGo u fns₁ r = .ok r₁) :
    admitGo u (fns₁ ++ fns₂) r = admitGo u fns₂ r₁ := by
  induction fns₁ generalizing r with
  | nil =>
    unfold admitGo at h
    injection h with h
    subst h
    rfl
  | cons g gs ih =>
    unfold admitGo at h
    split at h
    · exact absurd h (by simp)
    · next r2 hg =>
      split at h
      · exact absurd h (by simp)
      · next h1 =>
        split at h
        · exact absurd h (by simp)
        · next h2 =>
          rw [List.cons_append, admitGo_cons_ok hg h1 h2]
          exact ih h

/-- C4: the admission controllers run in registration order; the first
controller exception aborts the pipeline with `AdmissionFailed` carrying the
resource's URI and the exception as cause, regardless of the controllers
registered after it; a controller returning a resource with a different URI
or a different spec runtime type is a `RuntimeError`; and a `put` whose
admission stage fails returns that error with the store unchanged (nothing is
written). -/
theorem C4_admission_order_and_abort :
    (∀ (fns₁ fns₂ : List AdmissionFn) (f : AdmissionFn) (u : URI) (r r₁ : Res) (e : PyErr),
      r.uri = u → admitGo u fns₁ r = .ok r₁ → f r₁ = .error e →
      admitAll (fns₁ ++ f :: fns₂) r = .error (.admissionFailed u e)) ∧
    (∀ (fns₁ fns₂ : List AdmissionFn) (f : AdmissionFn) (u : URI) (r r₁ r₂ : Res),
      r.uri = u → admitGo u fns₁ r = .ok r₁ → f r₁ = .ok r₂ → r₂.uri ≠ u →
      admitAll (fns₁ ++ f :: fns₂) r =
        .error (.runtimeError "Admission controller mutated resource URI")) ∧
    (∀ (fns₁ fns₂ : List AdmissionFn) (f : AdmissionFn) (u : URI) (r r₁ r₂ : Res),
      r.uri = u → admitGo u fns₁ r = .ok r₁ → f r₁ = .ok r₂ → r₂.uri = u →
      r₂.spec.runtimeType ≠ r₁.spec.runtimeType →
      admitAll (fns₁ ++ f :: fns₂) r =
        .error (.runtimeError "Admission controller mutated resource spec type")) ∧
    (∀ rt vf (fns : List AdmissionFn) dflt (store : Store) (r : Res) (st : SpecType)
        (res1 : Res) (e : PyErr) (bb : Bool),
      r.state.isSome = false →
      rt r.apiVersion r.kind = some st →
      Res.into st r = .ok res1 →
      vf st res1.spec.payload = .ok () →
      check_uri st (defaultFill st dflt r.uri.nspace res1).uri true = .ok bb →
      admitAll fns (defaultFill st dflt r.uri.nspace res1) = .error e →
      registryPut rt vf fns dflt store r = (.error e, store)) := by
  refine ⟨?_, ?_, ?_, ?_⟩
  · intro fns₁ fns₂ f u r r₁ e hu h hf
    have hr₁ : r₁.uri = u := admitGo_ok_uri h hu
    unfold admitAll
    rw [hu, admitGo_append (f :: fns₂) h, admitGo_cons_error hf, hr₁]
  · intro fns₁ fns₂ f u r r₁ r₂ hu h hf h2
    unfold admitAll
    rw [hu, admitGo_append (f :: fns₂) h, admitGo_cons_uriMut hf h2]
  · intro fns₁ fns₂ f u r r₁ r₂ hu h hf h2 h3
    unfold admitAll
    rw [hu, admitGo_append (f :: fns₂) h,
      admitGo_cons_specMut hf (by rw [not_ne_iff]; exact h2) h3]
  · intro rt vf fns dflt store r st res1 e bb hstate hrt hinto hval hcheck hadmit
    simp [registryPut, hstate, hrt, hinto, hval, hcheck, hadmit]

/-- Witness for C4: with a first controller that adds a label, a failing /
URI-mutating / spec-type-mutating second controller aborts admission with the
respective error (a third controller never runs), and a put through a failing
admission chain returns the wrapped error and the untouched store. -/
theorem C4_admission_order_and_abort_witness :
    admitAll ([labelingAdmission] ++ failingAdmission :: [labelingAdmission]) typedMyRes =
      .error (.admissionFailed typedMyRes.uri (.valueError "boom")) ∧
    admitAll ([labelingAdmission] ++ uriMutatingAdmission :: [labelingAdmission]) typedMyRes =
      .error (.runtimeError "Admission controller mutated resource URI") ∧
    admitAll ([labelingAdmission] ++ specMutatingAdmission :: [labelingAdmission]) typedMyRes =
      .error (.runtimeError "Admission controller mutated resource spec type") ∧
    registryPut fixtureTypes validateOk [failingAdmission] DEFAULT_NAMESPACE store0 myRes =
      (.error (.admissionFailed myRes.uri (.valueError "boom")), store0) := by
  obtain ⟨h1, h2, h3, h4⟩ := C4_admission_order_and_abort
  refine ⟨h1 [labelingAdmission] [labelingAdmission] failingAdmission typedMyRes.uri
      typedMyRes labeledMyRes (.valueError "boom") rfl (by rfl) (by rfl),
    h2 [labelingAdmission] [labelingAdmission] uriMutatingAdmission typedMyRes.uri
      typedMyRes labeledMyRes { labeledMyRes with
        metadata := { labeledMyRes.metadata with name := "other" } }
      rfl (by rfl) (by rfl) (by decide),
    h3 [labelingAdmission] [labelingAdmission] specMutatingAdmission typedMyRes.uri
      typedMyRes labeledMyRes { labeledMyRes with spec := .generic [("content", "hi")] }
      rfl (by rfl) (by rfl) (by decide) (by decide),
    h4 fixtureTypes validateOk [failingAdmission] DEFAULT_NAMESPACE store0 myRes
      mySpecType typedMyRes (.admissionFailed myRes.uri (.valueError "boom")) true
      rfl rfl (by rfl) rfl (by rfl) (by rfl)⟩

/-! ### `ResourceTypeRegistry.register` lemmas -/

theorem assocGet_set_self {α : Type} (m : List (String × α)) (k : String) (v : α) :
    assocGet (assocSet m k v) k = some v := by
  induction m with
  | nil => simp [assocSet, assocGet]
  | cons p rest ih =>
    obtain ⟨k', v'⟩ := p
    by_cases hk : k' = k
    · subst hk
      simp [assocSet, assocGet]
    · simp [assocSet, assocGet, hk, ih]

theorem assocSet_set_same {α : Type} (m : List (String × α)) (k : String) (v : α) :
    assocSet (assocSet m k v) k v = assocSet m k v := by
  induction m with
  | nil => simp [assocSet]
  | cons p rest ih =>
    obtain ⟨k', v'⟩ := p
    by_cases hk : k' = k
    · subst hk
      simp [assocSet]
    · simp [assocSet, hk, ih]

theorem assocGet_append_of_none {α : Type} {m : List (String × α)} {k : String}
    (h : assocGet m k = none) (x : α) : assocGet (m ++ [(k, x)]) k = some x := by
  induction m with
  | nil => simp [assocGet]
  | cons p rest ih =>
    obtain ⟨k', v'⟩ := p
    by_cases hk : k' = k
    · rw [assocGet, if_pos hk] at h
      cases h
    · rw [assocGet, if_neg hk] at h
      rw [List.cons_append, assocGet, if_neg hk]
      exact ih h

theorem assocSet_append_of_none {α : Type} {m : List (String × α)} {k : String}
    (h : assocGet m k = none) (x y : α) :
    assocSet (m ++ [(k, x)]) k y = m ++ [(k, y)] := by
  induction m with
  | nil => simp [assocSet]
  | cons p rest ih =>
    obtain ⟨k', v'⟩ := p
    by_cases hk : k' = k
    · rw [assocGet, if_pos hk] at h
      cases h
    · rw [assocGet, if_neg hk] at h
      rw [List.cons_append, assocSet, if_neg hk, ih h]
      simp

/-- C8 counterexample: re-registering a DIFFERENT spec type (id 1) under the
already-registered Type ("v1", "Namespace") (id 0) is NOT an error that
leaves the registry unchanged — `register` returns normally (it is total) and
silently replaces the entry, so the registry changes. -/
theorem C8_counterexample_register_overwrites :
    rtrRegister (rtrRegister [] "v1" "Namespace" 0) "v1" "Namespace" 1 =
      [("v1", [("Namespace", 1)])] ∧
    rtrRegister (rtrRegister [] "v1" "Namespace" 0) "v1" "Namespace" 1 ≠
      rtrRegister [] "v1" "Namespace" 0 := by
  exact ⟨by decide, by decide⟩

/-- C8 (amended): `register(SpecType)` is idempotent when called again with
the same SpecType for an already-registered Type, but registering a different
SpecType under an already-registered Type raises no error: it silently
overwrites the registration, so a subsequent `get` returns the new
SpecType. -/
theorem rtrRegister_eq_of_get {reg : RTR} {a : String} {inner : List (String × Nat)}
    (h : assocGet reg a = some inner) (k : String) (s : Nat) :
    rtrRegister reg a k s = assocSet reg a (assocSet inner k s) := by
  simp only [rtrRegister, h]

theorem rtrRegister_eq_of_none {reg : RTR} {a : String}
    (h : assocGet reg a = none) (k : String) (s : Nat) :
    rtrRegister reg a k s = reg ++ [(a, [(k, s)])] := by
  simp only [rtrRegister, h]

theorem C8_register_idempotent_and_overwrites (reg : RTR) (a k : String) (i j : Nat) :
    rtrRegister (rtrRegister reg a k i) a k i = rtrRegister reg a k i ∧
    rtrGet (rtrRegister reg a k j) a k = some j := by
  cases hga : assocGet reg a with
  | some inner =>
    have e1 := rtrRegister_eq_of_get hga k i
    have e2 : assocGet (rtrRegister reg a k i) a = some (assocSet inner k i) := by
      rw [e1]
      exact assocGet_set_self reg a _
    constructor
    · rw [rtrRegister_eq_of_get e2 k i, assocSet_set_same, e1, assocSet_set_same]
    · have e2j : assocGet (rtrRegister reg a k j) a = some (assocSet inner k j) := by
        rw [rtrRegister_eq_of_get hga k j]
        exact assocGet_set_self reg a _
      simp only [rtrGet, e2j]
      exact assocGet_set_self inner k j
  | none =>
    have e1 := rtrRegister_eq_of_none hga k i
    have e2 : assocGet (rtrRegister reg a k i) a = some [(k, i)] := by
      rw [e1]
      exact assocGet_append_of_none hga _
    constructor
    · rw [rtrRegister_eq_of_get e2 k i,
        show assocSet [(k, i)] k i = [(k, i)] by simp [assocSet],
        e1, assocSet_append_of_none hga]
    · have e2j : assocGet (rtrRegister reg a k j) a = some [(k, j)] := by
        rw [rtrRegister_eq_of_none hga k j]
        exact assocGet_append_of_none hga _
      simp only [rtrGet, e2j]
      simp [assocGet]

/-! ### `Params` lemmas -/

theorem pLookup_typeOf {b : List Val} {t : PyType} {w : Val}
    (h : pLookup b t = some w) : w.typeOf = t := by
  induction b with
  | nil => cases h
  | cons v vs ih =>
    unfold pLookup at h
    by_cases hv : v.typeOf = t
    · rw [if_pos hv] at h
      cases h
      exact hv
    · rw [if_neg hv] at h
      exact ih h

theorem pLookup_append (xs ys : List Val) (t : PyType) :
    pLookup (xs ++ ys) t =
      match pLookup xs t with
      | some v => some v
      | none => pLookup ys t := by
  induction xs with
  | nil => simp [pLookup]
  | cons v vs ih =>
    by_cases hv : v.typeOf = t
    · simp [pLookup, hv]
    · simp [pLookup, hv, ih]

theorem pLookup_mapMerge (a b : List Val) (t : PyType) :
    pLookup (a.map (fun v => match pLookup b v.typeOf with | some w => w | none => v)) t =
      match pLookup a t with
      | some v => some (match pLookup b t with | some w => w | none => v)
      | none => none := by
  induction a with
  | nil => simp [pLookup]
  | cons v vs ih =>
    by_cases hv : v.typeOf = t
    · cases hb : pLookup b v.typeOf with
      | some w =>
        have hw : w.typeOf = v.typeOf := pLookup_typeOf hb
        rw [← hv]
        simp [pLookup, hb, hw]
      | none =>
        rw [← hv]
        simp [pLookup, hb]
    · cases hb : pLookup b v.typeOf with
      | some w =>
        have hw : w.typeOf = v.typeOf := pLookup_typeOf hb
        simp [pLookup, hb, hv, hw, ih]
      | none => simp [pLookup, hb, hv, ih]

theorem pLookup_filterNone (a b : List Val) (t : PyType) :
    pLookup (b.filter (fun w => (pLookup a w.typeOf).isNone)) t =
      match pLookup a t with
      | some _ => none
      | none => pLookup b t := by
  induction b with
  | nil => cases pLookup a t <;> simp [pLookup]
  | cons w ws ih =>
    by_cases hw : w.typeOf = t
    · cases ha : pLookup a t with
      | some v => simp [List.filter, pLookup, hw, ha, ih]
      | none => simp [List.filter, pLookup, hw, ha]
    · cases hcond : (pLookup a w.typeOf).isNone with
      | true => simp [List.filter, hcond, pLookup, hw, ih]
      | false => simp [List.filter, hcond, pLookup, hw, ih]

theorem pLookup_pMerge (a b : List Val) (t : PyType) :
    pLookup (pMerge a b) t =
      match pLookup b t with
      | some w => some w
      | none => pLookup a t := by
  unfold pMerge
  rw [pLookup_append, pLookup_mapMerge, pLookup_filterNone]
  cases ha : pLookup a t <;> cases hb : pLookup b t <;> simp

theorem pKeys_iff_lookup {l : List Val} {t : PyType} :
    t ∈ pKeys l ↔ (pLookup l t).isSome := by
  induction l with
  | nil => simp [pKeys, pLookup]
  | cons v vs ih =>
    simp only [pKeys] at ih ⊢
    simp only [List.map_cons, List.mem_cons]
    by_cases hv : v.typeOf = t
    · simp [pLookup, hv]
    · have hv2 : ¬(t = v.typeOf) := fun h => hv h.symm
      simp [pLookup, hv, hv2, ih]

/-- C9: `Params | Params` merges with right-hand precedence: the merged
bundle contains exactly the union of the two bundles' types; a type present
in the right bundle resolves to the right bundle's value, and a type present
only in the left bundle resolves to the left bundle's value. -/
theorem C9_params_merge_right_precedence :
    ∀ (a b : List Val) (t : PyType),
      (t ∈ pKeys (pMerge a b) ↔ t ∈ pKeys a ∨ t ∈ pKeys b) ∧
      (t ∈ pKeys b → pLookup (pMerge a b) t = pLookup b t) ∧
      (t ∈ pKeys a → t ∉ pKeys b → pLookup (pMerge a b) t = pLookup a t) := by
  intro a b t
  have hm := pLookup_pMerge a b t
  refine ⟨?_, ?_, ?_⟩
  · rw [pKeys_iff_lookup, pKeys_iff_lookup, pKeys_iff_lookup, hm]
    cases pLookup a t <;> cases pLookup b t <;> simp
  · intro hb
    rw [pKeys_iff_lookup] at hb
    rw [hm]
    cases hbl : pLookup b t with
    | some w => rfl
    | none => rw [hbl] at hb; cases hb
  · intro ha hb
    rw [pKeys_iff_lookup] at ha
    rw [pKeys_iff_lookup] at hb
    rw [hm]
    cases hbl : pLookup b t with
    | some w => rw [hbl] at hb; cases hb rfl
    | none => rfl

/-- Witness for C9 with `a = Params(int 1, str "x")`, `b = Params(int 2)`:
`int` is taken from `b`, `str` from `a`, and the merged type set is the
union. -/
theorem C9_params_merge_witness :
    ("int" ∈ pKeys (pMerge [Val.vInt 1, Val.vStr "x"] [Val.vInt 2]) ↔
      "int" ∈ pKeys [Val.vInt 1, Val.vStr "x"] ∨ "int" ∈ pKeys [Val.vInt 2]) ∧
    pLookup (pMerge [Val.vInt 1, Val.vStr "x"] [Val.vInt 2]) "int" =
      pLookup [Val.vInt 2] "int" ∧
    pLookup (pMerge [Val.vInt 1, Val.vStr "x"] [Val.vInt 2]) "str" =
      pLookup [Val.vInt 1, Val.vStr "x"] "str" :=
  ⟨(C9_params_merge_right_precedence [Val.vInt 1, Val.vStr "x"] [Val.vInt 2] "int").1,
   (C9_params_merge_right_precedence [Val.vInt 1, Val.vStr "x"] [Val.vInt 2] "int").2.1
     (by decide),
   (C9_params_merge_right_precedence [Val.vInt 1, Val.vStr "x"] [Val.vInt 2] "str").2.2
     (by decide) (by decide)⟩

/-! ### Rules graph and engine theorems -/

/-- C5: with more than one candidate resolution `find_path` fails with
`MultipleMatchingRulesError` carrying all candidate paths; in particular two
distinct rules `str→int` resolving `int` from `{str}` produce exactly the two
singleton paths (a set of cardinality 2); with no rule producing the output
type it fails with `NoMatchingRulesError`; and any `MultipleMatchingRules`
failure carries the failing signature and at least two candidate paths. -/
theorem C5_find_path_multiple_and_none :
    (∀ (id₁ id₂ : String) (f₁ f₂ : List Val → Option Val) (n : Nat),
      id₁ ≠ id₂ →
      findPath [⟨id₁, ["str"], "int", f₁⟩, ⟨id₂, ["str"], "int", f₂⟩] (n + 1)
          ⟨["str"], "int"⟩ =
        .error (.multiple ⟨["str"], "int"⟩
          [[⟨id₁, ["str"], "int", f₁⟩], [⟨id₂, ["str"], "int", f₂⟩]]) ∧
      ([[(⟨id₁, ["str"], "int", f₁⟩ : Rule)], [⟨id₂, ["str"], "int", f₂⟩]]).length = 2 ∧
      [(⟨id₁, ["str"], "int", f₁⟩ : Rule)] ≠ [⟨id₂, ["str"], "int", f₂⟩]) ∧
    (∀ (g : List Rule) (sig : Signature) (n : Nat),
      rulesFor g sig.output_type = [] →
      findPath g (n + 1) sig = .error (.noMatching sig)) ∧
    (∀ (g : List Rule) (sig sig' : Signature) (n : Nat) (ps : List (List Rule)),
      findPath g (n + 1) sig = .error (.multiple sig' ps) →
      sig' = sig ∧ 2 ≤ ps.length) := by
  refine ⟨?_, ?_, ?_⟩
  · intro id₁ id₂ f₁ f₂ n hid
    refine ⟨rfl, rfl, ?_⟩
    intro h
    injection h with h1 _
    injection h1 with hid' _ _ _
    exact hid hid'
  · intro g sig n h
    simp [findPath, h]
  · intro g sig sig' n ps h
    simp only [findPath] at h
    split at h
    · next hlen =>
      injection h with h1
      injection h1 with hs hp
      refine ⟨hs.symm, ?_⟩
      rw [← hp]
      omega
    · next hlen =>
      split at h
      · simp at h
      · simp at h

/-- Witness for C5: the decimal/hex `str→int` pair is ambiguous for
`int` from `{str}` with both singleton paths reported; an empty graph has no
matching rules; and the reported ambiguity carries the signature and two
paths. -/
theorem C5_find_path_witness :
    (findPath [ruleDecimal, ruleHex] 1 ⟨["str"], "int"⟩ =
      .error (.multiple ⟨["str"], "int"⟩ [[ruleDecimal], [ruleHex]]) ∧
     ([[ruleDecimal], [ruleHex]] : List (List Rule)).length = 2 ∧
     ([ruleDecimal] : List Rule) ≠ [ruleHex]) ∧
    findPath [] 1 ⟨["str"], "float"⟩ = .error (.noMatching ⟨["str"], "float"⟩) ∧
    ((⟨["str"], "int"⟩ : Signature) = ⟨["str"], "int"⟩ ∧
      2 ≤ ([[ruleDecimal], [ruleHex]] : List (List Rule)).length) := by
  obtain ⟨h1, h2, h3⟩ := C5_find_path_multiple_and_none
  exact ⟨h1 "r1" "r2" (fun _ => some (Val.vInt 10)) (fun _ => some (Val.vInt 16)) 0
      (by decide),
    h2 [] ⟨["str"], "float"⟩ 0 rfl,
    h3 [ruleDecimal, ruleHex] ⟨["str"], "int"⟩ ⟨["str"], "int"⟩ 0
      [[ruleDecimal], [ruleHex]] (by rfl)⟩

theorem pLookup_pFilter (p : List Val) (types : List PyType) (t : PyType) :
    pLookup (pFilter p types) t = if t ∈ types then pLookup p t else none := by
  induction types with
  | nil => simp [pFilter, pLookup]
  | cons u us ih =>
    simp only [pFilter] at ih ⊢
    by_cases hu : u = t
    · subst hu
      cases hp : pLookup p u with
      | some w =>
        have hw := pLookup_typeOf hp
        simp [List.filterMap_cons, hp, pLookup, hw, ih]
      | none => simp [List.filterMap_cons, hp, ih]
    · have hu2 : ¬(t = u) := fun h => hu h.symm
      cases hp : pLookup p u with
      | some w =>
        have hw := pLookup_typeOf hp
        simp [List.filterMap_cons, hp, pLookup, hw, hu, hu2, ih]
      | none => simp [List.filterMap_cons, hp, hu, hu2, ih]

/-- C6: the input bundle `subjects.filter(inputs) | params.filter(inputs)`
handed to an executed rule takes the caller-provided params in preference to
the engine subjects for every type both contain; concretely, with subject
`CustomType(42)` and the rule `CustomType→int`, `get(int, Params())` yields
42 and `get(int, Params(CustomType(33)))` yields 33. -/
theorem C6_caller_params_override_subjects :
    (∀ (subjects params : List Val) (input_types : List PyType) (t : PyType),
      t ∈ input_types → (pLookup params t).isSome →
      pLookup (ruleParamsOf subjects params input_types) t = pLookup params t) ∧
    (engineGet [CustomTypeToInt] [Val.vCustom 42] 1 "int" [] []).map Prod.fst =
      .ok (Val.vInt 42) ∧
    (engineGet [CustomTypeToInt] [Val.vCustom 42] 1 "int" [Val.vCustom 33] []).map
        Prod.fst = .ok (Val.vInt 33) := by
  refine ⟨?_, rfl, rfl⟩
  intro subjects params input_types t ht hp
  rw [ruleParamsOf, pLookup_pMerge, pLookup_pFilter, if_pos ht]
  cases hl : pLookup params t with
  | some w => simp [hl]
  | none =>
    rw [hl] at hp
    cases hp

/-- Witness for C6: for the subject bundle `[CustomType 42]` and caller
params `[CustomType 33]`, the rule input bundle resolves `CustomType` to the
caller's value. -/
theorem C6_caller_params_override_subjects_witness :
    pLookup (ruleParamsOf [Val.vCustom 42] [Val.vCustom 33] ["CustomType"])
        "CustomType" = pLookup [Val.vCustom 33] "CustomType" :=
  C6_caller_params_override_subjects.1 [Val.vCustom 42] [Val.vCustom 33]
    ["CustomType"] "CustomType" (by decide) (by decide)

/-- Witness for C2 at the test-suite fixture: the Namespace "default" cannot
be deleted while `my-resource` lives in it; putting `my-resource` into an
empty store fails with `NamespaceNotFound`; and the invariant is preserved by
a committed put and a committed delete. -/
theorem C2_store_namespace_integrity_witness :
    storeDelete store0 nsRes.uri = .error (.namespaceNotEmpty nsRes.uri) ∧
    storePut [] myRes = .error (.namespaceNotFound myRes.uri) ∧
    nsInv [nsRes, myRes] ∧
    nsInv [nsRes] := by
  obtain ⟨h1, h2, h3, h4⟩ := C2_store_namespace_integrity
  refine ⟨h1 store0 nsRes rfl rfl rfl (by decide), h2 [] myRes "default" rfl rfl,
    h3 [nsRes] [nsRes, myRes] myRes (by decide) (by rfl),
    h4 store0 [nsRes] myRes.uri true (by decide) (by rfl)⟩

end Equilibrium
